import Mathlib

/-!
Verification of the task-tracking CRUD service (`app/` of the repository).

The store is modelled as the persisted `tasks` table: a list of committed
rows kept in primary-key (rowid) order, together with the next id the
engine will assign.  Pydantic validation, the repository operations of
`app/crud.py`, and the statistics/health handlers of `app/main.py` are
embedded as executable Lean functions; fallible commits are `Except`.
-/

namespace TodoApp

/-- A committed row of the `tasks` table (`app/models.py`, class `Task`):
`id` integer primary key, `title` non-null string, `description` nullable
string, `completed` non-null boolean. -/
structure Task where
  id : Nat
  title : String
  description : Option String
  completed : Bool
deriving Repr, DecidableEq

/-- The persisted state: the rows of the `tasks` table in rowid (= id)
order, plus the next primary key the engine assigns (SQLite: max id + 1,
starting at 1). -/
structure Store where
  tasks : List Task
  nextId : Nat
deriving Repr, DecidableEq

/-- The empty table, as created by `Base.metadata.create_all`. -/
def Store.empty : Store := ⟨[], 1⟩

/-- Well-formedness of a store: row ids strictly increase along the table
(so ids are unique and the scan order is ascending-id order) and every id
is below the next assigned id. -/
def Store.WF (s : Store) : Prop :=
  s.tasks.Pairwise (fun a b => a.id < b.id) ∧ ∀ t ∈ s.tasks, t.id < s.nextId

instance (s : Store) : Decidable s.WF := by
  unfold Store.WF; infer_instance

/-- `app/schemas.py`, class `TaskCreate` (= `TaskBase`): required `title`,
optional `description`. -/
structure TaskCreate where
  title : String
  description : Option String
deriving Repr, DecidableEq

/-- Pydantic validation of `TaskCreate`: `title` has `min_length=1,
max_length=200`; `description`, when a string, has `max_length=1000`. -/
def validTaskCreate (tc : TaskCreate) : Bool :=
  decide (1 ≤ tc.title.length) && decide (tc.title.length ≤ 200) &&
    (match tc.description with
     | none => true
     | some d => decide (d.length ≤ 1000))

/-- `app/schemas.py`, class `TaskUpdate`: every field optional.  Pydantic
distinguishes a field left unset from a field explicitly set to `null`;
the outer `Option` is "was the field set", the inner value is what it was
set to (`none` = explicit `null`). -/
structure TaskUpdate where
  title : Option (Option String)
  description : Option (Option String)
  completed : Option (Option Bool)
deriving Repr, DecidableEq

/-- The update payload with no field set. -/
def TaskUpdate.empty : TaskUpdate := ⟨none, none, none⟩

/-- Pydantic validation of `TaskUpdate`: the `min_length`/`max_length`
bounds on `title`/`description` apply only when the set value is a string;
an explicit `null` passes (the declared type is `Optional[str]`). -/
def validTaskUpdate (u : TaskUpdate) : Bool :=
  (match u.title with
   | some (some s) => decide (1 ≤ s.length) && decide (s.length ≤ 200)
   | _ => true) &&
  (match u.description with
   | some (some d) => decide (d.length ≤ 1000)
   | _ => true)

/-- The keys of `task.model_dump(exclude_unset=True)`: exactly the fields
that were set on the payload, whether to a value or to an explicit
`null`. -/
def TaskUpdate.setKeys (u : TaskUpdate) : List String :=
  (if u.title.isSome then ["title"] else []) ++
    (if u.description.isSome then ["description"] else []) ++
      (if u.completed.isSome then ["completed"] else [])

/-- The in-memory ORM row during an update: after `setattr` any column
attribute, non-nullable ones included, may hold `None`; the NOT NULL
constraints are enforced only at commit. -/
structure PendingRow where
  id : Nat
  title : Option String
  description : Option String
  completed : Option Bool
deriving Repr, DecidableEq

/-- View a committed row as an in-memory row. -/
def Task.toPending (t : Task) : PendingRow :=
  ⟨t.id, some t.title, t.description, some t.completed⟩

/-- The `for key, value in update_data.items(): setattr(db_task, key, value)`
loop of `TaskRepository.update`: each field set on the payload overwrites
the attribute, each unset field is left alone. -/
def applyUpdate (u : TaskUpdate) (r : PendingRow) : PendingRow :=
  { r with
    title := match u.title with
      | none => r.title
      | some v => v
    description := match u.description with
      | none => r.description
      | some v => v
    completed := match u.completed with
      | none => r.completed
      | some v => v }

/-- Committing an in-memory row: succeeds with the committed row when the
NOT NULL constraints on `title` and `completed` hold, otherwise the engine
raises (IntegrityError). -/
def PendingRow.commitRow (r : PendingRow) : Except Unit Task :=
  match r.title, r.completed with
  | some s, some b => .ok ⟨r.id, s, r.description, b⟩
  | _, _ => .error ()

namespace TaskRepository

/-- `TaskRepository.create`: insert a row built from the payload's fields
(`completed` takes the column default `False`), commit, return the row
with its assigned id. -/
def create (s : Store) (tc : TaskCreate) : Store × Task :=
  let t : Task := ⟨s.nextId, tc.title, tc.description, false⟩
  (⟨s.tasks ++ [t], s.nextId + 1⟩, t)

/-- `TaskRepository.get_by_id`: first row whose id matches, if any. -/
def get_by_id (s : Store) (taskId : Nat) : Option Task :=
  s.tasks.find? (fun t => t.id == taskId)

/-- `TaskRepository.get_all`: `query.offset(skip).limit(limit).all()`
over the table scan (rowid order). -/
def get_all (s : Store) (skip : Nat) (limit : Nat) : List Task :=
  (s.tasks.drop skip).take limit

/-- Outcome of a successful `TaskRepository.update` call: the resulting
store, the returned value, and whether `db.commit()` was called. -/
structure UpdateResult where
  store : Store
  result : Option Task
  committed : Bool
deriving Repr, DecidableEq

/-- `TaskRepository.update`: look the row up; if absent, return `None`
without committing; if present, `setattr` each set field, commit (which
raises on a NOT NULL violation), and return the refreshed row. -/
def update (s : Store) (taskId : Nat) (u : TaskUpdate) :
    Except Unit UpdateResult :=
  match s.tasks.find? (fun t => t.id == taskId) with
  | none => .ok ⟨s, none, false⟩
  | some t =>
    match (applyUpdate u t.toPending).commitRow with
    | .error e => .error e
    | .ok t2 =>
      .ok ⟨⟨s.tasks.map (fun x => if x.id == taskId then t2 else x), s.nextId⟩,
           some t2, true⟩

/-- Outcome of `TaskRepository.delete`: the resulting store, the returned
value, and whether `db.commit()` was called. -/
structure DeleteResult where
  store : Store
  result : Option Task
  committed : Bool
deriving Repr, DecidableEq

/-- `TaskRepository.delete`: look the row up; if absent, return `None`
without committing; if present, delete it by primary key, commit, and
return the row as fetched before removal. -/
def delete (s : Store) (taskId : Nat) : DeleteResult :=
  match s.tasks.find? (fun t => t.id == taskId) with
  | none => ⟨s, none, false⟩
  | some t =>
    ⟨⟨s.tasks.filter (fun x => !(x.id == taskId)), s.nextId⟩, some t, true⟩

/-- `TaskRepository.count`: number of rows. -/
def count (s : Store) : Nat := s.tasks.length

end TaskRepository

/-- The statistics payload of `get_task_statistics` (`app/main.py`). -/
structure StatsSummary where
  total : Int
  completed : Int
  pending : Int
deriving Repr, DecidableEq

/-- `get_task_statistics`: `total = TaskRepository.count(db)`,
`completed = count of rows with completed == True`,
`pending = total - completed`. -/
def get_task_statistics (s : Store) : StatsSummary :=
  let total : Int := TaskRepository.count s
  let completed : Int := (s.tasks.filter (fun t => t.completed)).length
  ⟨total, completed, total - completed⟩

/-- The response shape of the `/health` endpoint
(`app/schemas.py`, class `HealthResponse`). -/
structure HealthResponse where
  status : String
  database : String
  version : String
deriving Repr, DecidableEq

/-- `check_db_connection` (`app/database.py`): run the `SELECT 1`
round-trip; `True` on success, and any raised error is caught and turned
into `False` — the function itself never raises.  The round-trip's
outcome is the argument. -/
def check_db_connection (roundTrip : Except Unit Unit) : Bool :=
  match roundTrip with
  | .ok _ => true
  | .error _ => false

/-- `health_check` (`app/main.py`): database status `"healthy"` when the
round-trip check returns `True`, else `"unhealthy"`; overall status
`"healthy"` when the database status is `"healthy"`, else `"degraded"`. -/
def health_check (roundTrip : Except Unit Unit) (version : String) :
    HealthResponse :=
  let db_status := if check_db_connection roundTrip then "healthy" else "unhealthy"
  let app_status := if db_status == "healthy" then "healthy" else "degraded"
  ⟨app_status, db_status, version⟩

/-- Store states reachable from the empty table through validated create
and update operations (an update contributes a state only when it
returns, i.e. did not raise). -/
inductive Reachable : Store → Prop
  | init : Reachable Store.empty
  | create (s : Store) (tc : TaskCreate) : Reachable s →
      validTaskCreate tc = true → Reachable (TaskRepository.create s tc).1
  | update (s : Store) (taskId : Nat) (u : TaskUpdate)
      (r : TaskRepository.UpdateResult) : Reachable s →
      validTaskUpdate u = true →
      TaskRepository.update s taskId u = .ok r → Reachable r.store

/-- A string made of whitespace only (and at least one character). -/
def whitespaceOnly (s : String) : Bool :=
  !(s == "") && s.toList.all Char.isWhitespace

/-! Concrete data used to instantiate theorems with hypotheses. -/

/-- A sample committed row. -/
def sampleTask1 : Task := ⟨1, "Test Task", some "This is a test task", false⟩

/-- A second sample committed row. -/
def sampleTask2 : Task := ⟨2, "Task without description", none, true⟩

/-- A sample well-formed store with two rows. -/
def sampleStore : Store := ⟨[sampleTask1, sampleTask2], 3⟩

/-- A sample valid create payload. -/
def sampleCreate : TaskCreate := ⟨"Test Task", some "This is a test task"⟩

/-! Helper lemmas about the repository operations. -/

/-- Successful commit of an in-memory row: the committed row carries the
same id and description and the (necessarily non-null) title and
completed values. -/
theorem commitRow_ok {r : PendingRow} {t : Task}
    (h : r.commitRow = .ok t) :
    t.id = r.id ∧ r.title = some t.title ∧ t.description = r.description ∧
      r.completed = some t.completed := by
  unfold PendingRow.commitRow at h
  cases ht : r.title with
  | none => rw [ht] at h; cases h
  | some s =>
    cases hc : r.completed with
    | none => rw [ht, hc] at h; cases h
    | some b =>
      rw [ht, hc] at h
      cases h
      exact ⟨rfl, rfl, rfl, rfl⟩

/-- `find?` over a `filter` is `find?` over the list when the search
predicate forces the filter predicate. -/
theorem find?_filter_of_imp {α : Type} (l : List α) (p q : α → Bool)
    (h : ∀ x, p x = true → q x = true) :
    (l.filter q).find? p = l.find? p := by
  induction l with
  | nil => rfl
  | cons a l ih =>
    by_cases hq : q a = true
    · rw [List.filter_cons_of_pos hq]
      by_cases hp : p a = true
      · simp [List.find?_cons, hp]
      · simp only [List.find?_cons, Bool.not_eq_true] at *
        simp [hp, ih]
    · have hp : p a = false := by
        cases hpa : p a
        · rfl
        · exact absurd (h a hpa) hq
      rw [List.filter_cons_of_neg (by simpa using hq)]
      simp only [List.find?_cons, hp, if_false]
      exact ih

/-- In an id-sorted list, replacing by id the row `find?` located is a
no-op when the replacement is that row itself. -/
theorem map_replace_self (l : List Task)
    (hp : l.Pairwise (fun a b => a.id < b.id)) (taskId : Nat) (t : Task)
    (h : l.find? (fun x => x.id == taskId) = some t) :
    l.map (fun x => if x.id == taskId then t else x) = l := by
  induction l with
  | nil => cases h
  | cons a l ih =>
    by_cases ha : (a.id == taskId) = true
    · have ht : a = t := by simpa [List.find?_cons, ha] using h
      subst ht
      have hid : a.id = taskId := by simpa using ha
      simp only [List.map_cons, if_pos ha]
      have htail : ∀ x ∈ l, (if (x.id == taskId) = true then a else x) = x := by
        intro x hx
        have hlt : a.id < x.id := (List.pairwise_cons.mp hp).1 x hx
        have : ¬ (x.id == taskId) = true := by
          intro hbeq
          have : x.id = taskId := by simpa using hbeq
          omega
        simp [this]
      rw [List.map_congr_left htail]
      simp
    · have ha2 : (a.id == taskId) = false := by simpa using ha
      simp only [List.find?_cons, ha2, if_false] at h
      simp only [List.map_cons, if_neg ha]
      rw [ih (List.pairwise_cons.mp hp).2 h]

/-- In an id-sorted list, removing by id a row that `find?` located
shortens the list by exactly one. -/
theorem filter_remove_length (l : List Task)
    (hp : l.Pairwise (fun a b => a.id < b.id)) (taskId : Nat) (t : Task)
    (h : l.find? (fun x => x.id == taskId) = some t) :
    (l.filter (fun x => !(x.id == taskId))).length + 1 = l.length := by
  induction l with
  | nil => cases h
  | cons a l ih =>
    by_cases ha : (a.id == taskId) = true
    · have hid : a.id = taskId := by simpa using ha
      rw [List.filter_cons_of_neg (by simpa using ha)]
      have htail : l.filter (fun x => !(x.id == taskId)) = l := by
        rw [List.filter_eq_self]
        intro x hx
        have hlt : a.id < x.id := (List.pairwise_cons.mp hp).1 x hx
        have : ¬ (x.id == taskId) = true := by
          intro hbeq
          have : x.id = taskId := by simpa using hbeq
          omega
        simpa using this
      rw [htail, List.length_cons]
    · have ha2 : (a.id == taskId) = false := by simpa using ha
      simp only [List.find?_cons, ha2, if_false] at h
      rw [List.filter_cons_of_pos (by simpa using ha), List.length_cons,
        List.length_cons, ih (List.pairwise_cons.mp hp).2 h]

/-! Claim theorems. -/

/-- C1: for every valid create payload, `create` returns a task with the
system-assigned id (`nextId`, so in particular populated), `completed`
equal to `false`, and `title`/`description` equal to the payload's
fields; the new row is appended to the table. -/
theorem create_returns_populated_task (s : Store) (tc : TaskCreate)
    (hv : validTaskCreate tc = true) :
    (TaskRepository.create s tc).2.id = s.nextId ∧
    (TaskRepository.create s tc).2.completed = false ∧
    (TaskRepository.create s tc).2.title = tc.title ∧
    (TaskRepository.create s tc).2.description = tc.description ∧
    (TaskRepository.create s tc).1.tasks =
      s.tasks ++ [(TaskRepository.create s tc).2] :=
  ⟨rfl, rfl, rfl, rfl, rfl⟩

/-- Witness for C1 at a concrete payload. -/
theorem create_returns_populated_task_witness :
    validTaskCreate sampleCreate = true ∧
    ((TaskRepository.create Store.empty sampleCreate).2.id = Store.empty.nextId ∧
     (TaskRepository.create Store.empty sampleCreate).2.completed = false ∧
     (TaskRepository.create Store.empty sampleCreate).2.title = sampleCreate.title ∧
     (TaskRepository.create Store.empty sampleCreate).2.description =
       sampleCreate.description ∧
     (TaskRepository.create Store.empty sampleCreate).1.tasks =
       Store.empty.tasks ++ [(TaskRepository.create Store.empty sampleCreate).2]) :=
  ⟨by decide, create_returns_populated_task Store.empty sampleCreate (by decide)⟩

/-- C7: the statistics report `total = count()`, `completed` = number of
stored rows with `completed = true`, `pending = total - completed`, and
these satisfy `pending + completed = total` and `pending ≥ 0`. -/
theorem statistics_consistent (s : Store) :
    (get_task_statistics s).total = (TaskRepository.count s : Int) ∧
    (get_task_statistics s).completed =
      ((s.tasks.countP (fun t => t.completed) : Nat) : Int) ∧
    (get_task_statistics s).pending + (get_task_statistics s).completed =
      (get_task_statistics s).total ∧
    0 ≤ (get_task_statistics s).pending := by
  have hle : (s.tasks.filter (fun t => t.completed)).length ≤ s.tasks.length :=
    List.length_filter_le _ _
  refine ⟨rfl, ?_, ?_, ?_⟩
  · simp [get_task_statistics, List.countP_eq_length_filter]
  · simp only [get_task_statistics]
    omega
  · simp only [get_task_statistics, TaskRepository.count]
    omega

/-- C8: the health endpoint is a total function to a structured response;
its `database` field is `"healthy"` exactly when the store round-trip
succeeds (any raised error having been caught by `check_db_connection`),
and the overall `status` is `"healthy"` when the database is healthy and
`"degraded"` otherwise. -/
theorem health_check_never_raises (rt : Except Unit Unit) (v : String) :
    ((health_check rt v).database = "healthy" ↔ check_db_connection rt = true) ∧
    (check_db_connection rt = true ↔ rt = .ok ()) ∧
    ((health_check rt v).status =
      if (health_check rt v).database = "healthy" then "healthy" else "degraded") ∧
    (health_check rt v).version = v ∧
    health_check (.error ()) v = ⟨"degraded", "unhealthy", v⟩ := by
  cases rt with
  | ok u =>
    cases u
    refine ⟨?_, ?_, ?_, rfl, rfl⟩
    · show ("healthy" : String) = "healthy" ↔ true = true
      decide
    · show true = true ↔ Except.ok () = Except.ok ()
      simp
    · show ("healthy" : String) =
        if ("healthy" : String) = "healthy" then "healthy" else "degraded"
      decide
  | error e =>
    cases e
    refine ⟨?_, ?_, ?_, rfl, rfl⟩
    · show ("unhealthy" : String) = "healthy" ↔ false = true
      decide
    · show false = true ↔ Except.error () = Except.ok ()
      simp
    · show ("degraded" : String) =
        if ("unhealthy" : String) = "healthy" then "healthy" else "degraded"
      decide

/-- C10: the update payload whose `title` is explicitly set to `null`
passes validation (the 1-200 length bounds apply only to string values),
its `title` key is among the fields `model_dump(exclude_unset=True)`
reports as set, and applying the update writes `null` into the row's
title attribute. -/
theorem null_title_update_accepted_and_applied :
    validTaskUpdate ⟨some none, none, none⟩ = true ∧
    "title" ∈ (TaskUpdate.mk (some none) none none).setKeys ∧
    ∀ r : PendingRow, (applyUpdate ⟨some none, none, none⟩ r).title = none :=
  ⟨by decide, by decide, fun r => rfl⟩

/-- C2: on a well-formed store, `get_all` returns the stored rows in
ascending-id order with the first `skip` rows dropped and at most `limit`
rows returned; `limit = 0` and `skip` beyond the row count each give the
empty sequence rather than an error. -/
theorem get_all_paginates (s : Store) (skip lim : Nat) (hwf : s.WF) :
    (lim = 0 → TaskRepository.get_all s skip lim = []) ∧
    (s.tasks.length ≤ skip → TaskRepository.get_all s skip lim = []) ∧
    (TaskRepository.get_all s skip lim).length ≤ lim ∧
    (∀ i, i < lim →
      (TaskRepository.get_all s skip lim)[i]? = s.tasks[skip + i]?) ∧
    (TaskRepository.get_all s skip lim).Pairwise (fun a b => a.id < b.id) := by
  refine ⟨?_, ?_, ?_, ?_, ?_⟩
  · intro h
    subst h
    simp [TaskRepository.get_all]
  · intro h
    unfold TaskRepository.get_all
    rw [List.drop_eq_nil_of_le h, List.take_nil]
  · exact List.length_take_le _ _
  · intro i hi
    unfold TaskRepository.get_all
    simp [List.getElem?_take, List.getElem?_drop, hi]
  · exact hwf.1.sublist ((List.take_sublist _ _).trans (List.drop_sublist _ _))

/-- Witness for C2 on a concrete well-formed store. -/
theorem get_all_paginates_witness :
    sampleStore.WF ∧
    ((5 = 0 → TaskRepository.get_all sampleStore 1 5 = []) ∧
     (sampleStore.tasks.length ≤ 1 → TaskRepository.get_all sampleStore 1 5 = []) ∧
     (TaskRepository.get_all sampleStore 1 5).length ≤ 5 ∧
     (∀ i, i < 5 →
       (TaskRepository.get_all sampleStore 1 5)[i]? = sampleStore.tasks[1 + i]?) ∧
     (TaskRepository.get_all sampleStore 1 5).Pairwise (fun a b => a.id < b.id)) :=
  ⟨by decide, get_all_paginates sampleStore 1 5 (by decide)⟩

/-- C5: `update` and `delete` on an id with no matching row return
`None` without committing and leave the store unchanged, and an `update`
run that did commit had found a matching row. -/
theorem missing_id_is_absent_not_error (s : Store) (taskId : Nat)
    (u : TaskUpdate) (habs : TaskRepository.get_by_id s taskId = none) :
    TaskRepository.update s taskId u = .ok ⟨s, none, false⟩ ∧
    TaskRepository.delete s taskId = ⟨s, none, false⟩ ∧
    ∀ (s2 : Store) (res : TaskRepository.UpdateResult),
      TaskRepository.update s2 taskId u = .ok res → res.committed = true →
      ∃ t, TaskRepository.get_by_id s2 taskId = some t := by
  unfold TaskRepository.get_by_id at habs
  refine ⟨?_, ?_, ?_⟩
  · unfold TaskRepository.update
    rw [habs]
  · unfold TaskRepository.delete
    rw [habs]
  · intro s2 res hok hc
    unfold TaskRepository.update at hok
    cases hfind : s2.tasks.find? (fun t => t.id == taskId) with
    | none =>
      rw [hfind] at hok
      injection hok with h
      rw [← h] at hc
      simp at hc
    | some t => exact ⟨t, hfind⟩

/-- Witness for C5 at a nonexistent id on a concrete store. -/
theorem missing_id_is_absent_not_error_witness :
    TaskRepository.update sampleStore 999 TaskUpdate.empty =
      .ok ⟨sampleStore, none, false⟩ ∧
    TaskRepository.delete sampleStore 999 = ⟨sampleStore, none, false⟩ := by
  have h := missing_id_is_absent_not_error sampleStore 999 TaskUpdate.empty
    (by decide)
  exact ⟨h.1, h.2.1⟩

/-- C6: deleting an existing id removes that row (the table shrinks by
one, the id no longer resolves, all other ids resolve as before) and
returns the row's value as fetched immediately before removal. -/
theorem delete_removes_row_and_returns_it (s : Store) (taskId : Nat)
    (t : Task) (hwf : s.WF)
    (hfind : TaskRepository.get_by_id s taskId = some t) :
    (TaskRepository.delete s taskId).result = some t ∧
    (TaskRepository.delete s taskId).committed = true ∧
    TaskRepository.get_by_id (TaskRepository.delete s taskId).store taskId
      = none ∧
    (∀ j, j ≠ taskId →
      TaskRepository.get_by_id (TaskRepository.delete s taskId).store j =
        TaskRepository.get_by_id s j) ∧
    (TaskRepository.delete s taskId).store.tasks.length + 1 =
      s.tasks.length := by
  unfold TaskRepository.get_by_id at hfind
  have hdel : TaskRepository.delete s taskId =
      ⟨⟨s.tasks.filter (fun x => !(x.id == taskId)), s.nextId⟩, some t, true⟩ := by
    unfold TaskRepository.delete
    rw [hfind]
  rw [hdel]
  refine ⟨rfl, rfl, ?_, ?_, ?_⟩
  · unfold TaskRepository.get_by_id
    rw [List.find?_eq_none]
    intro x hx
    have hq := (List.mem_filter.mp hx).2
    simpa using hq
  · intro j hj
    unfold TaskRepository.get_by_id
    apply find?_filter_of_imp
    intro x hpx
    have hxj : x.id = j := by simpa using hpx
    have : ¬ (x.id == taskId) = true := by
      intro hbeq
      have : x.id = taskId := by simpa using hbeq
      exact hj (by omega)
    simpa using this
  · exact filter_remove_length s.tasks hwf.1 taskId t hfind

/-- Witness for C6 on a concrete store. -/
theorem delete_removes_row_and_returns_it_witness :
    (TaskRepository.delete sampleStore 1).result = some sampleTask1 ∧
    TaskRepository.get_by_id (TaskRepository.delete sampleStore 1).store 1
      = none := by
  have h := delete_removes_row_and_returns_it sampleStore 1 sampleTask1
    (by decide) (by decide)
  exact ⟨h.1, h.2.2.1⟩

/-- C9: for an existing task, an update whose `description` is explicitly
set to `null` is valid and overwrites the stored description with `null`,
while an update that omits the field leaves the description as it was:
`exclude_unset` keeps explicitly-null fields. -/
theorem explicit_null_description_overwrites (s : Store) (taskId : Nat)
    (t : Task) (hfind : TaskRepository.get_by_id s taskId = some t) :
    validTaskUpdate ⟨none, some none, none⟩ = true ∧
    (∃ res, TaskRepository.update s taskId ⟨none, some none, none⟩ = .ok res ∧
      res.result = some ⟨t.id, t.title, none, t.completed⟩ ∧
      res.committed = true) ∧
    (∀ res2, TaskRepository.update s taskId ⟨none, none, none⟩ = .ok res2 →
      res2.result = some t) ∧
    "description" ∈ (TaskUpdate.mk none (some none) none).setKeys ∧
    "description" ∉ (TaskUpdate.mk none none none).setKeys := by
  unfold TaskRepository.get_by_id at hfind
  have hup : TaskRepository.update s taskId ⟨none, some none, none⟩ =
      .ok ⟨⟨s.tasks.map (fun x =>
              if x.id == taskId then ⟨t.id, t.title, none, t.completed⟩ else x),
            s.nextId⟩,
           some ⟨t.id, t.title, none, t.completed⟩, true⟩ := by
    unfold TaskRepository.update
    rw [hfind]
    rfl
  have hup2 : TaskRepository.update s taskId ⟨none, none, none⟩ =
      .ok ⟨⟨s.tasks.map (fun x => if x.id == taskId then t else x), s.nextId⟩,
           some t, true⟩ := by
    unfold TaskRepository.update
    rw [hfind]
    rfl
  refine ⟨by decide, ⟨_, hup, rfl, rfl⟩, ?_, by decide, by decide⟩
  intro res2 h2
  injection (hup2.symm.trans h2) with h3
  rw [← h3]

/-- Witness for C9 on a concrete store whose task has a description. -/
theorem explicit_null_description_overwrites_witness :
    ∃ res, TaskRepository.update sampleStore 1 ⟨none, some none, none⟩ =
        .ok res ∧
      res.result = some ⟨1, "Test Task", none, false⟩ ∧
      res.committed = true := by
  have h := explicit_null_description_overwrites sampleStore 1 sampleTask1
    (by decide)
  exact h.2.1

/-- C4: an update on an existing row overwrites exactly the fields set on
the payload and leaves unset fields unchanged; updating with only
`completed = true` keeps `title`/`description` and sets `completed`; the
zero-field payload is valid and acts as a no-op that still returns the
row and commits. -/
theorem update_overwrites_exactly_set_fields (s : Store) (taskId : Nat)
    (t : Task) (hwf : s.WF)
    (hfind : TaskRepository.get_by_id s taskId = some t) :
    (∀ (u : TaskUpdate) (res : TaskRepository.UpdateResult),
      TaskRepository.update s taskId u = .ok res →
      ∃ t2, res.result = some t2 ∧ res.committed = true ∧ t2.id = t.id ∧
        (u.title = none → t2.title = t.title) ∧
        (∀ v, u.title = some (some v) → t2.title = v) ∧
        (u.description = none → t2.description = t.description) ∧
        (∀ v, u.description = some v → t2.description = v) ∧
        (u.completed = none → t2.completed = t.completed) ∧
        (∀ v, u.completed = some (some v) → t2.completed = v)) ∧
    (TaskRepository.update s taskId ⟨none, none, some (some true)⟩ =
      .ok ⟨⟨s.tasks.map (fun x =>
              if x.id == taskId then ⟨t.id, t.title, t.description, true⟩ else x),
            s.nextId⟩,
           some ⟨t.id, t.title, t.description, true⟩, true⟩) ∧
    validTaskUpdate TaskUpdate.empty = true ∧
    TaskRepository.update s taskId TaskUpdate.empty = .ok ⟨s, some t, true⟩ := by
  unfold TaskRepository.get_by_id at hfind
  refine ⟨?_, ?_, by decide, ?_⟩
  · intro u res hok
    have hok2 : (match (applyUpdate u t.toPending).commitRow with
        | Except.error e => Except.error e
        | Except.ok t2 =>
          Except.ok (⟨⟨s.tasks.map (fun x => if x.id == taskId then t2 else x),
                       s.nextId⟩, some t2, true⟩ : TaskRepository.UpdateResult))
        = Except.ok res := by
      rw [← hok]
      unfold TaskRepository.update
      rw [hfind]
    cases hcommit : (applyUpdate u t.toPending).commitRow with
    | error e =>
      rw [hcommit] at hok2
      exact absurd hok2 (by simp)
    | ok t2 =>
      rw [hcommit] at hok2
      injection hok2 with h3
      rw [← h3]
      obtain ⟨hid, hti, hde, hco⟩ := commitRow_ok hcommit
      refine ⟨t2, rfl, rfl, hid, ?_, ?_, ?_, ?_, ?_, ?_⟩
      · intro h
        simp only [applyUpdate, Task.toPending, h] at hti
        exact (Option.some.inj hti).symm
      · intro v h
        simp only [applyUpdate, Task.toPending, h] at hti
        exact (Option.some.inj hti).symm
      · intro h
        simp only [applyUpdate, Task.toPending, h] at hde
        exact hde
      · intro v h
        simp only [applyUpdate, Task.toPending, h] at hde
        exact hde
      · intro h
        simp only [applyUpdate, Task.toPending, h] at hco
        exact (Option.some.inj hco).symm
      · intro v h
        simp only [applyUpdate, Task.toPending, h] at hco
        exact (Option.some.inj hco).symm
  · unfold TaskRepository.update
    rw [hfind]
    rfl
  · have hmap := map_replace_self s.tasks hwf.1 taskId t hfind
    unfold TaskRepository.update
    rw [hfind]
    show Except.ok
        (⟨⟨s.tasks.map (fun x => if x.id == taskId then t else x), s.nextId⟩,
          some t, true⟩ : TaskRepository.UpdateResult) =
      .ok ⟨s, some t, true⟩
    rw [hmap]

/-- Witness for C4: the two scenario updates on a concrete store. -/
theorem update_overwrites_exactly_set_fields_witness :
    TaskRepository.update sampleStore 1 ⟨none, none, some (some true)⟩ =
      .ok ⟨⟨[⟨1, "Test Task", some "This is a test task", true⟩, sampleTask2], 3⟩,
           some ⟨1, "Test Task", some "This is a test task", true⟩, true⟩ ∧
    TaskRepository.update sampleStore 1 TaskUpdate.empty =
      .ok ⟨sampleStore, some sampleTask1, true⟩ := by
  have h := update_overwrites_exactly_set_fields sampleStore 1 sampleTask1
    (by decide) (by decide)
  exact ⟨h.2.1, h.2.2.2⟩

/-- C3 counterexample: the claim that reachable stores never hold a
whitespace-only title is false — the payload whose title is a single
space passes validation (`min_length=1` counts characters, it does not
trim) and creating with it reaches a store containing a whitespace-only
title. -/
theorem whitespace_title_is_reachable :
    ¬ (∀ s : Store, Reachable s → ∀ t ∈ s.tasks,
        t.title ≠ "" ∧ whitespaceOnly t.title = false) := by
  intro hclaim
  have hr : Reachable (TaskRepository.create Store.empty ⟨" ", none⟩).1 :=
    Reachable.create Store.empty ⟨" ", none⟩ Reachable.init (by decide)
  have hmem : (⟨1, " ", none, false⟩ : Task) ∈
      (TaskRepository.create Store.empty ⟨" ", none⟩).1.tasks := by
    show (⟨1, " ", none, false⟩ : Task) ∈
      ([] : List Task) ++ [⟨1, " ", none, false⟩]
    simp
  have h2 := hclaim _ hr _ hmem
  exact absurd h2.2 (by decide)

/-- C3 amended: in every store state reachable through validated create
and update operations, every stored task's title is non-empty (titles
may still be whitespace-only, since validation does not trim). -/
theorem reachable_titles_nonempty (s : Store) (hs : Reachable s) :
    ∀ t ∈ s.tasks, 1 ≤ t.title.length := by
  induction hs with
  | init =>
    intro x hx
    exact absurd (show x ∈ ([] : List Task) from hx) (List.not_mem_nil x)
  | create s tc hr hv ih =>
    intro x hx
    have hx2 : x ∈ s.tasks ++ [⟨s.nextId, tc.title, tc.description, false⟩] := hx
    rcases List.mem_append.mp hx2 with h1 | h2
    · exact ih x h1
    · have hx3 : x = ⟨s.nextId, tc.title, tc.description, false⟩ := by
        simpa using h2
      subst hx3
      unfold validTaskCreate at hv
      simp only [Bool.and_eq_true, decide_eq_true_eq] at hv
      exact hv.1.1
  | update s taskId u res hr hv hok ih =>
    intro x hx
    cases hfind : s.tasks.find? (fun y => y.id == taskId) with
    | none =>
      have hok2 : (Except.ok ⟨s, none, false⟩ :
          Except Unit TaskRepository.UpdateResult) = Except.ok res := by
        rw [← hok]
        unfold TaskRepository.update
        rw [hfind]
      injection hok2 with h
      rw [← h] at hx
      exact ih x hx
    | some t =>
      have hok2 : (match (applyUpdate u t.toPending).commitRow with
          | Except.error e => Except.error e
          | Except.ok t2 =>
            Except.ok (⟨⟨s.tasks.map (fun y => if y.id == taskId then t2 else y),
                         s.nextId⟩, some t2, true⟩ : TaskRepository.UpdateResult))
          = Except.ok res := by
        rw [← hok]
        unfold TaskRepository.update
        rw [hfind]
      cases hcommit : (applyUpdate u t.toPending).commitRow with
      | error e =>
        rw [hcommit] at hok2
        exact absurd hok2 (by simp)
      | ok t2 =>
        rw [hcommit] at hok2
        injection hok2 with h
        rw [← h] at hx
        rcases List.mem_map.mp hx with ⟨y, hy, hxy⟩
        obtain ⟨_, hti, _, _⟩ := commitRow_ok hcommit
        by_cases hyid : (y.id == taskId) = true
        · rw [if_pos hyid] at hxy
          subst hxy
          cases hut : u.title with
          | none =>
            simp only [applyUpdate, Task.toPending, hut] at hti
            rw [← Option.some.inj hti]
            exact ih t (List.mem_of_find?_eq_some hfind)
          | some v =>
            cases v with
            | none =>
              simp only [applyUpdate, Task.toPending, hut] at hti
              cases hti
            | some str =>
              simp only [applyUpdate, Task.toPending, hut] at hti
              rw [← Option.some.inj hti]
              unfold validTaskUpdate at hv
              rw [hut] at hv
              simp only [Bool.and_eq_true, decide_eq_true_eq] at hv
              exact hv.1.1
        · rw [if_neg hyid] at hxy
          subst hxy
          exact ih y hy

/-- Witness for the amended C3 on a concrete reachable store. -/
theorem reachable_titles_nonempty_witness :
    1 ≤ (Task.mk 1 "a" none false).title.length :=
  reachable_titles_nonempty ⟨[⟨1, "a", none, false⟩], 2⟩
    (Reachable.create Store.empty ⟨"a", none⟩ Reachable.init (by decide))
    ⟨1, "a", none, false⟩ (by decide)

end TodoApp
